import Mathlib

/-!
Verification of the AIResumeJobMatcher backend (src/main.go).

The development shallowly embeds the pieces of the Go program that the
checked properties are about: the JSON value model used by Go's
encoding/json, the custom FlexibleStringSlice decoder, the response
normalizer (fence stripping plus JSON decoding), the client-key
derivation helper getIPAddress, the Redis-backed counter, and the /chat
request handler chatHandler.  External effects (the Redis store and the
Gemini call) are passed in explicitly: the store as a state value, the
completion service as an oracle function from the prompt to a result.
-/

namespace ResumeMatcher

/-- JSON values as handled by Go's encoding/json.  Numbers are modelled as
integers: the only numeric field in the program's schemas is the int field
matchScore, and the parser below rejects fractional literals outright,
which reaches the same handler outcome (a decode failure and hence the
same HTTP status) as Go does on a fractional matchScore. -/
inductive Json where
  | null
  | bool (b : Bool)
  | num (n : Int)
  | str (s : String)
  | arr (elems : List Json)
  | obj (fields : List (String × Json))

/-- The double-quote character, by code point. -/
def qchar : Char := Char.ofNat 34

/-- The backslash character, by code point. -/
def bslash : Char := Char.ofNat 92

/-- The opening curly brace character, by code point. -/
def obrace : Char := Char.ofNat 123

/-- The closing curly brace character, by code point. -/
def cbrace : Char := Char.ofNat 125

/-- JSON insignificant whitespace (RFC 8259, as accepted by Go's scanner):
space, tab, line feed, carriage return. -/
def skipWs : List Char → List Char
  | c :: cs => if c == ' ' || c == '\t' || c == '\n' || c == '\r' then skipWs cs else c :: cs
  | [] => []

/-- Value of a hexadecimal digit character, if it is one. -/
def hexVal (c : Char) : Option Nat :=
  if 48 ≤ c.toNat ∧ c.toNat ≤ 57 then some (c.toNat - 48)
  else if 97 ≤ c.toNat ∧ c.toNat ≤ 102 then some (c.toNat - 87)
  else if 65 ≤ c.toNat ∧ c.toNat ≤ 70 then some (c.toNat - 55)
  else none

/-- Value of a decimal digit character, if it is one. -/
def digitVal (c : Char) : Option Nat :=
  if 48 ≤ c.toNat ∧ c.toNat ≤ 57 then some (c.toNat - 48) else none

/-- Split a character list into its leading run of decimal digits and the
rest. -/
def takeDigits : List Char → (List Nat × List Char)
  | [] => ([], [])
  | c :: cs =>
    match digitVal c with
    | some d =>
      let p := takeDigits cs
      (d :: p.1, p.2)
    | none => ([], c :: cs)

/-- Decimal value of a digit-value list. -/
def digitsToNat (ds : List Nat) : Nat := ds.foldl (fun a d => a * 10 + d) 0

/-- Parse a JSON integer literal (optional minus sign, no leading zeros,
per the JSON grammar Go enforces).  A following fraction or exponent
character makes the parse fail: fractional numbers are outside this
model (see Json). -/
def parseIntLit (cs : List Char) : Option (Int × List Char) :=
  let p : Bool × List Char :=
    match cs with
    | c :: rest => if c == '-' then (true, rest) else (false, cs)
    | [] => (false, cs)
  match takeDigits p.2 with
  | ([], _) => none
  | (d :: ds, rest) =>
    if d == 0 && !ds.isEmpty then none
    else
      let n : Int := Int.ofNat (digitsToNat (d :: ds))
      let v : Int := if p.1 then -n else n
      match rest with
      | c :: _ => if c == '.' || c == 'e' || c == 'E' then none else some (v, rest)
      | [] => some (v, rest)

/-- Parse the body of a JSON string literal (the opening quote already
consumed), handling the JSON escape sequences; `acc` holds the decoded
characters in reverse.  Raw control characters are rejected, as in Go's
scanner.  (Surrogate-pair \u escapes are outside this model; no input in
this development uses them.) -/
def parseStrAux : Nat → List Char → List Char → Option (String × List Char)
  | 0, _, _ => none
  | _ + 1, _, [] => none
  | fuel + 1, acc, c :: rest =>
    if c == qchar then some (String.mk acc.reverse, rest)
    else if c == bslash then
      match rest with
      | [] => none
      | e :: rest2 =>
        if e == qchar then parseStrAux fuel (qchar :: acc) rest2
        else if e == bslash then parseStrAux fuel (bslash :: acc) rest2
        else if e == '/' then parseStrAux fuel ('/' :: acc) rest2
        else if e == 'n' then parseStrAux fuel ('\n' :: acc) rest2
        else if e == 't' then parseStrAux fuel ('\t' :: acc) rest2
        else if e == 'r' then parseStrAux fuel ('\r' :: acc) rest2
        else if e == 'b' then parseStrAux fuel (Char.ofNat 8 :: acc) rest2
        else if e == 'f' then parseStrAux fuel (Char.ofNat 12 :: acc) rest2
        else if e == 'u' then
          match rest2 with
          | h1 :: h2 :: h3 :: h4 :: rest3 =>
            match hexVal h1, hexVal h2, hexVal h3, hexVal h4 with
            | some a, some b, some c3, some d =>
              parseStrAux fuel (Char.ofNat (((a * 16 + b) * 16 + c3) * 16 + d) :: acc) rest3
            | _, _, _, _ => none
          | _ => none
        else none
    else if c.toNat < 32 then none
    else parseStrAux fuel (c :: acc) rest

mutual

/-- Parse one JSON value, fuel-bounded.  Mirrors the grammar accepted by
Go's encoding/json scanner (with numbers restricted to integers as noted
on Json). -/
def parseJsonAux : Nat → List Char → Option (Json × List Char)
  | 0, _ => none
  | fuel + 1, cs =>
    match skipWs cs with
    | [] => none
    | c :: rest =>
      if c == qchar then
        match parseStrAux (rest.length + 1) [] rest with
        | some p => some (Json.str p.1, p.2)
        | none => none
      else if c == 'n' then
        match rest with
        | 'u' :: 'l' :: 'l' :: r => some (Json.null, r)
        | _ => none
      else if c == 't' then
        match rest with
        | 'r' :: 'u' :: 'e' :: r => some (Json.bool true, r)
        | _ => none
      else if c == 'f' then
        match rest with
        | 'a' :: 'l' :: 's' :: 'e' :: r => some (Json.bool false, r)
        | _ => none
      else if c == '[' then
        match skipWs rest with
        | c2 :: r2 =>
          if c2 == ']' then some (Json.arr [], r2)
          else
            match parseArrElems fuel (c2 :: r2) with
            | some p => some (Json.arr p.1, p.2)
            | none => none
        | [] => none
      else if c == obrace then
        match skipWs rest with
        | c2 :: r2 =>
          if c2 == cbrace then some (Json.obj [], r2)
          else
            match parseObjFields fuel (c2 :: r2) with
            | some p => some (Json.obj p.1, p.2)
            | none => none
        | [] => none
      else
        match parseIntLit (c :: rest) with
        | some p => some (Json.num p.1, p.2)
        | none => none

/-- Parse the elements of a non-empty JSON array (after the opening
bracket and leading whitespace), up to and including the closing
bracket. -/
def parseArrElems : Nat → List Char → Option (List Json × List Char)
  | 0, _ => none
  | fuel + 1, cs =>
    match parseJsonAux fuel cs with
    | none => none
    | some (v, rest) =>
      match skipWs rest with
      | c :: r =>
        if c == ',' then
          match parseArrElems fuel r with
          | some p => some (v :: p.1, p.2)
          | none => none
        else if c == ']' then some ([v], r)
        else none
      | [] => none

/-- Parse the fields of a non-empty JSON object (after the opening brace
and leading whitespace), up to and including the closing brace. -/
def parseObjFields : Nat → List Char → Option (List (String × Json) × List Char)
  | 0, _ => none
  | fuel + 1, cs =>
    match cs with
    | c :: rest =>
      if c == qchar then
        match parseStrAux (rest.length + 1) [] rest with
        | none => none
        | some (k, r1) =>
          match skipWs r1 with
          | ':' :: r2 =>
            match parseJsonAux fuel r2 with
            | none => none
            | some (v, r3) =>
              match skipWs r3 with
              | c4 :: r4 =>
                if c4 == ',' then
                  match skipWs r4 with
                  | r5 =>
                    match parseObjFields fuel r5 with
                    | some p => some ((k, v) :: p.1, p.2)
                    | none => none
                else if c4 == cbrace then some ([(k, v)], r4)
                else none
              | [] => none
          | _ => none
      else none
    | [] => none

end

/-- Parse a complete JSON text: one value, with only whitespace allowed
around it.  (Go's json.Unmarshal requires exactly one value; the
stream-decoder call sites in the program are likewise given single
values.) -/
def parseJson (s : String) : Option Json :=
  match parseJsonAux (2 * s.data.length + 4) s.data with
  | some (j, rest) => if (skipWs rest).isEmpty then some j else none
  | none => none

/-! ## String primitives

The Go standard-library string functions the handler uses, re-expressed
as structural recursion over the character list of the string (the
core-library versions go through Substring byte positions, which do not
reduce definitionally). -/

/-- Whitespace as trimmed by strings.TrimSpace (the ASCII whitespace any
input of this program contains; TrimSpace also trims the rarer Unicode
space code points, which never occur here). -/
def isWsChar (c : Char) : Bool :=
  c == ' ' || c == '\t' || c == '\n' || c == '\r'

/-- Go's strings.TrimSpace. -/
def goTrim (s : String) : String :=
  String.mk (((s.data.dropWhile isWsChar).reverse.dropWhile isWsChar).reverse)

/-- Whether s starts with p. -/
def strStarts (s p : String) : Bool :=
  p.data.isPrefixOf s.data

/-- Whether s ends with p. -/
def strEnds (s p : String) : Bool :=
  p.data.reverse.isPrefixOf s.data.reverse

/-- Drop the first n characters of s. -/
def strDrop (s : String) (n : Nat) : String :=
  String.mk (s.data.drop n)

/-- Drop the last n characters of s. -/
def strDropRight (s : String) (n : Nat) : String :=
  String.mk (s.data.take (s.data.length - n))

/-- ASCII lower-casing of a character, as strings.EqualFold's simple
case folding acts on the ASCII key names of this program's schemas. -/
def lowerChar (c : Char) : Char :=
  if 65 ≤ c.toNat ∧ c.toNat ≤ 90 then Char.ofNat (c.toNat + 32) else c

/-- ASCII lower-casing of a string. -/
def lowerStr (s : String) : String :=
  String.mk (s.data.map lowerChar)

/-! ## Go unmarshalling semantics for the program's schemas -/

/-- Result of Go's json.Unmarshal into a string variable (zero value "").
A JSON null leaves the target unchanged and reports no error (encoding/json
documentation: unmarshalling null into a non-pointer, non-slice Go value
has no effect and produces no error), so null yields the zero value "". -/
def unmarshalString (j : Json) : Option String :=
  match j with
  | Json.str s => some s
  | Json.null => some ""
  | _ => none

/-- Element-wise unmarshalling of a JSON array's values into string
slots, failing on the first element that is neither a string nor null
(a null element leaves the zeroed slot unchanged, hence ""). -/
def unmarshalStringElems : List Json → Option (List String)
  | [] => some []
  | j :: t =>
    match unmarshalString j with
    | none => none
    | some s =>
      match unmarshalStringElems t with
      | none => none
      | some l => some (s :: l)

/-- Result of Go's json.Unmarshal into a []string variable.  A top-level
null sets the slice to nil, reported here as the empty list; any
non-array, non-null shape is a type error. -/
def unmarshalStringList (j : Json) : Option (List String) :=
  match j with
  | Json.arr xs => unmarshalStringElems xs
  | Json.null => some []
  | _ => none

/-- FlexibleStringSlice.UnmarshalJSON from src/main.go lines 29-41: first
try to unmarshal the value as a single string (wrapping it in a
one-element slice), then as a slice of strings, and fail otherwise.  The
custom unmarshaler is invoked on JSON null as well (encoding/json calls
UnmarshalJSON with the literal null bytes); null then succeeds through
the string branch, yielding [""]. -/
def flexibleUnmarshal (j : Json) : Option (List String) :=
  match unmarshalString j with
  | some s => some [s]
  | none => unmarshalStringList j

/-- AnalysisRequest from src/main.go lines 44-47. -/
structure AnalysisRequest where
  resume : String
  jobDescription : String
deriving DecidableEq

/-- The Go zero value of a slice is nil, which json.Marshal renders as
null, distinct from an empty slice (rendered []).  A FlexibleStringSlice
field left untouched by Unmarshal (its key absent) therefore keeps the
value modelled here as none. -/
abbrev GoStringSlice := Option (List String)

/-- AnalysisResponse from src/main.go lines 49-53, with the two
FlexibleStringSlice fields keeping the nil/non-nil distinction of Go
slices (none = nil). -/
structure AnalysisResponse where
  matchScore : Int
  improvements : GoStringSlice
  nextSteps : GoStringSlice
deriving DecidableEq

/-- The Go zero value of AnalysisResponse: 0, nil, nil. -/
def zeroAnalysisResponse : AnalysisResponse := ⟨0, none, none⟩

/-- Apply one JSON object member to an AnalysisResponse being decoded, as
Go's encoding/json does: keys are matched against the struct tags
case-insensitively; matchScore takes an integer (null is a no-op, any
other shape is a type error); the two flexible fields go through
FlexibleStringSlice.UnmarshalJSON; unknown keys are ignored. -/
def applyField (r : AnalysisResponse) (kv : String × Json) : Option AnalysisResponse :=
  if lowerStr kv.1 == "matchscore" then
    match kv.2 with
    | Json.num n => some { r with matchScore := n }
    | Json.null => some r
    | _ => none
  else if lowerStr kv.1 == "improvements" then
    match flexibleUnmarshal kv.2 with
    | some l => some { r with improvements := some l }
    | none => none
  else if lowerStr kv.1 == "nextsteps" then
    match flexibleUnmarshal kv.2 with
    | some l => some { r with nextSteps := some l }
    | none => none
  else some r

/-- Go's json.Unmarshal of a JSON value into an AnalysisResponse: the
value must be an object (members applied in order, later duplicates
overwriting) or null (a no-op on the zero value); anything else is a
type error.  Any member error makes the whole decode report an error,
which is all the caller (src/main.go line 172) observes. -/
def decodeAnalysis (j : Json) : Option AnalysisResponse :=
  match j with
  | Json.obj fs => fs.foldlM applyField zeroAnalysisResponse
  | Json.null => some zeroAnalysisResponse
  | _ => none

/-- Apply one JSON object member to an AnalysisRequest being decoded
(both fields are plain strings; null members are no-ops; unknown keys
are ignored). -/
def applyRequestField (r : AnalysisRequest) (kv : String × Json) : Option AnalysisRequest :=
  if lowerStr kv.1 == "resume" then
    match kv.2 with
    | Json.str s => some { r with resume := s }
    | Json.null => some r
    | _ => none
  else if lowerStr kv.1 == "jobdescription" then
    match kv.2 with
    | Json.str s => some { r with jobDescription := s }
    | Json.null => some r
    | _ => none
  else some r

/-- Go's decode of the request body into an AnalysisRequest
(src/main.go line 110). -/
def decodeAnalysisRequest (j : Json) : Option AnalysisRequest :=
  match j with
  | Json.obj fs => fs.foldlM applyRequestField ⟨ "", "" ⟩
  | Json.null => some ⟨ "", "" ⟩
  | _ => none

/-! ## Go marshalling of AnalysisResponse -/

/-- Escape one character as Go's json.Marshal does with the default
HTML-escaping encoder: quote, backslash, the common control escapes,
\u00XX for other control characters, and \u-escapes for the
HTML-sensitive characters. -/
def escapeChar (c : Char) : String :=
  if c == qchar then String.mk [bslash, qchar]
  else if c == bslash then String.mk [bslash, bslash]
  else if c == '\n' then String.mk [bslash, 'n']
  else if c == '\r' then String.mk [bslash, 'r']
  else if c == '\t' then String.mk [bslash, 't']
  else if c == '<' then "\\u003c"
  else if c == '>' then "\\u003e"
  else if c == '&' then "\\u0026"
  else if c.toNat < 32 then
    let lo := c.toNat % 16
    let hi := c.toNat / 16
    let hexDigit : Nat → Char := fun d => if d < 10 then Char.ofNat (48 + d) else Char.ofNat (87 + d)
    "\\u00" ++ String.mk [hexDigit hi, hexDigit lo]
  else String.singleton c

/-- Render a Go string as a JSON string literal, per json.Marshal. -/
def encodeJsonString (s : String) : String :=
  String.mk [qchar] ++ String.join (s.data.map escapeChar) ++ String.mk [qchar]

/-- Render a non-nil Go []string as a JSON array, per json.Marshal. -/
def encodeStringList (l : List String) : String :=
  "[" ++ String.intercalate "," (l.map encodeJsonString) ++ "]"

/-- Render a FlexibleStringSlice ([]string) as json.Marshal does: a nil
slice becomes null, any other slice becomes an array. -/
def encodeFlexible (v : GoStringSlice) : String :=
  match v with
  | none => "null"
  | some l => encodeStringList l

/-- json.Marshal of an AnalysisResponse: struct fields in declaration
order under their tag names. -/
def encodeAnalysisResponse (r : AnalysisResponse) : String :=
  String.mk [obrace] ++ "\"matchScore\":" ++ toString r.matchScore ++
    ",\"improvements\":" ++ encodeFlexible r.improvements ++
    ",\"nextSteps\":" ++ encodeFlexible r.nextSteps ++ String.mk [cbrace]

/-! ## Fence stripping (src/main.go lines 163-167) -/

/-- Go's strings.TrimPrefix: remove the leading prefix p from s if
present, otherwise return s unchanged. -/
def stripPre (p s : String) : String :=
  if strStarts s p then strDrop s p.length else s

/-- Go's strings.TrimSuffix: remove the trailing suffix p from s if
present, otherwise return s unchanged. -/
def stripSuf (p s : String) : String :=
  if strEnds s p then strDropRight s p.length else s

/-- The cleaning step of src/main.go lines 163-167: TrimSpace, then
TrimPrefix with the literal sequence of three backticks followed by
"json", then TrimPrefix with three backticks, then TrimSuffix with three
backticks, then TrimSpace. -/
def cleanResponse (s : String) : String :=
  goTrim (stripSuf "```" (stripPre "```" (stripPre "```json" (goTrim s))))

/-- Modelled from the spec's words, for comparison with cleanResponse:
the spec says the leading fence token is one of the literal sequences
"```json" or "```", "tried in that order, first match only" — so at most
one leading token is removed. -/
def cleanSpecFirstOnly (s : String) : String :=
  let t := goTrim s
  let u := if strStarts t "```json" then strDrop t 7
           else if strStarts t "```" then strDrop t 3
           else t
  goTrim (if strEnds u "```" then strDropRight u 3 else u)

/-- Modelled from the amended claim's words, for comparison with
cleanResponse: the two leading trims are applied in sequence, so when
the text starts with "```json" and the remainder still starts with
"```", both are removed. -/
def cleanSpecSeq (s : String) : String :=
  let t := goTrim s
  let u := if strStarts t "```json" then
             let v := strDrop t 7
             if strStarts v "```" then strDrop v 3 else v
           else if strStarts t "```" then strDrop t 3
           else t
  goTrim (if strEnds u "```" then strDropRight u 3 else u)

/-! ## Client-key derivation (src/main.go lines 63-77) -/

/-- The model of an incoming HTTP request, carrying exactly what the
handler reads: the method, the two identity headers (Header.Get returns
"" when a header is absent), the connection peer address, and the body
text. -/
structure GoRequest where
  method : String
  xForwardedFor : String
  xRealIP : String
  remoteAddr : String
  body : String

/-- The first entry of strings.Split(s, ","): the characters before the
first comma, the whole string when there is none. -/
def splitFirst (s : String) : String :=
  String.mk (s.data.takeWhile (fun c => c != ','))

/-- Index of the first occurrence of c in cs, if any. -/
def firstIdx (cs : List Char) (c : Char) : Option Nat :=
  cs.findIdx? (fun x => x == c)

/-- Index of the last occurrence of c in cs, if any. -/
def lastIdx (cs : List Char) (c : Char) : Option Nat :=
  match (cs.reverse.findIdx? (fun x => x == c)) with
  | some k => some (cs.length - 1 - k)
  | none => none

/-- Go's net.SplitHostPort: split "host:port" (or "[host]:port") around
the last colon, returning none on any of the error cases (no colon,
missing or misplaced brackets, a colon inside an unbracketed host, stray
brackets).  All error cases collapse to none, which is all the caller
distinguishes. -/
def splitHostPort (s : String) : Option (String × String) :=
  let cs := s.data
  match lastIdx cs ':' with
  | none => none
  | some i =>
    let port := String.mk (cs.drop (i + 1))
    if strStarts s "[" then
      match firstIdx cs ']' with
      | none => none
      | some e =>
        if e + 1 == cs.length then none
        else if e + 1 != i then none
        else if (cs.drop 1).contains '[' then none
        else if (cs.drop (e + 1)).contains ']' then none
        else some (String.mk ((cs.drop 1).take (e - 1)), port)
    else
      let host := cs.take i
      if host.contains ':' then none
      else if cs.contains '[' then none
      else if cs.contains ']' then none
      else some (String.mk host, port)

/-- getIPAddress from src/main.go lines 63-77: first the X-Forwarded-For
header (taking the first comma-separated entry), then X-Real-IP, then
the host part of RemoteAddr (RemoteAddr itself when it does not split). -/
def getIPAddress (r : GoRequest) : String :=
  if r.xForwardedFor ≠ "" then splitFirst r.xForwardedFor
  else if r.xRealIP ≠ "" then r.xRealIP
  else
    match splitHostPort r.remoteAddr with
    | some hp => hp.1
    | none => r.remoteAddr

/-- Modelled from the spec's words "the connection peer address (host
portion)", for comparison with getIPAddress: the host part of a
host:port address, or the address itself when it does not split. -/
def hostPortion (s : String) : String :=
  match splitHostPort s with
  | some hp => hp.1
  | none => s

/-! ## The Redis counter state -/

/-- Set key k to v in an association list, replacing the first
occurrence or appending. -/
def alSet (l : List (String × Nat)) (k : String) (v : Nat) : List (String × Nat) :=
  match l with
  | [] => [(k, v)]
  | kv :: t => if kv.1 == k then (k, v) :: t else kv :: alSet t k v

/-- Look up key k in an association list. -/
def alGet (l : List (String × Nat)) (k : String) : Option Nat :=
  match l with
  | [] => none
  | kv :: t => if kv.1 == k then some kv.2 else alGet t k

/-- The observable state this program keeps in Redis: a counter per key
and a time-to-live per key (in seconds). -/
structure RedisState where
  counts : List (String × Nat)
  ttls : List (String × Nat)
deriving DecidableEq

/-- Current counter value of a key (Redis INCR treats a missing key
as 0). -/
def getCount (st : RedisState) (k : String) : Nat :=
  (alGet st.counts k).getD 0

/-- Redis INCR: atomically increment the key's counter and return the
post-increment value. -/
def rdbIncr (st : RedisState) (k : String) : Nat × RedisState :=
  let n := getCount st k + 1
  (n, { st with counts := alSet st.counts k n })

/-- Redis EXPIRE: attach a time-to-live (in seconds) to the key. -/
def rdbExpire (st : RedisState) (k : String) (d : Nat) : RedisState :=
  { st with ttls := alSet st.ttls k d }

/-! ## The /chat handler (src/main.go lines 80-185) -/

/-- genai.FinishReason, as far as the handler inspects it. -/
inductive FinishReason where
  | stop
  | safety
  | other
deriving DecidableEq

/-- One candidate of a Gemini response: its finish reason and the text
parts of its content. -/
structure Candidate where
  finishReason : FinishReason
  parts : List String

/-- The result of model.GenerateContent. -/
structure GenResponse where
  candidates : List Candidate

/-- The prompt template of src/main.go lines 117-134, with the resume
and job description interpolated at the two %s positions. -/
def buildPrompt (req : AnalysisRequest) : String :=
  "\n\t\tAnalyze the following resume against the job description.\n" ++
  "\t\tYour response MUST be a valid JSON object. Do not include any text or markdown formatting before or after the JSON object.\n" ++
  "\t\tThe JSON object must have the following keys and value types:\n" ++
  "\t\t- \"matchScore\": an integer between 0 and 100 representing the match percentage.\n" ++
  "\t\t- \"improvements\": a JSON array of strings, where each string is a bullet point (using **word** for bolding) on how to improve the resume.\n" ++
  "\t\t- \"nextSteps\": a JSON array of strings, where each string is a bullet point (using **word** for bolding) on actionable next steps.\n\n" ++
  "\t\tHere is the data:\n\t\t**Resume:**\n\t\t---\n\t\t" ++ req.resume ++
  "\n\t\t---\n\t\t**Job Description:**\n\t\t---\n\t\t" ++ req.jobDescription ++ "\n\t\t---\n\t"

/-- What the handler writes for one request: the HTTP status, the
response body (http.Error and json.Encoder both end it with a newline),
and the Redis state afterwards. -/
structure HandlerOutput where
  status : Nat
  body : String
  state : RedisState
deriving DecidableEq

/-- chatHandler from src/main.go lines 80-185.  The Redis store is
passed as a state value; incrFails stands for the INCR call returning an
error (in which case the store is not observed to change); gen is the
completion service, a function of the prompt whose result is either the
GenerateContent error or a response. -/
def chatHandler (st : RedisState) (r : GoRequest) (incrFails : Bool)
    (gen : String → Except Unit GenResponse) : HandlerOutput :=
  if r.method ≠ "POST" then
    ⟨405, "Only POST method is allowed\n", st⟩
  else
    let ip := getIPAddress r
    if incrFails then
      ⟨500, "Could not process request\n", st⟩
    else
      let p := rdbIncr st ip
      let currentCount := p.1
      let st2 := if currentCount == 1 then rdbExpire p.2 ip 86400 else p.2
      if currentCount > 3 then
        ⟨429, "You have reached the limit of 3 requests per day.\n", st2⟩
      else
        match (parseJson r.body).bind decodeAnalysisRequest with
        | none => ⟨400, "Invalid request body\n", st2⟩
        | some req =>
          match gen (buildPrompt req) with
          | Except.error _ => ⟨500, "Failed to get analysis from AI model\n", st2⟩
          | Except.ok resp =>
            match resp.candidates with
            | [] => ⟨500, "Received an empty response from the AI model\n", st2⟩
            | c :: _ =>
              if c.finishReason = FinishReason.safety then
                ⟨400, "The analysis was blocked by the content safety filter.\n", st2⟩
              else
                match c.parts with
                | [] => ⟨500, "Received an empty response from the AI model\n", st2⟩
                | part :: _ =>
                  match (parseJson (cleanResponse part)).bind decodeAnalysis with
                  | none => ⟨500, "Failed to parse AI model response\n", st2⟩
                  | some analysisResp =>
                    ⟨200, encodeAnalysisResponse analysisResp ++ "\n", st2⟩

/-! ## Association-list and counter lemmas -/

theorem alGet_alSet_self (l : List (String × Nat)) (k : String) (v : Nat) :
    alGet (alSet l k v) k = some v := by
  induction l with
  | nil => simp [alSet, alGet]
  | cons kv t ih =>
    by_cases h : kv.1 = k
    · simp [alSet, alGet, h]
    · simp only [alSet, alGet, beq_iff_eq, h, if_false, ih]

theorem alGet_alSet_ne (l : List (String × Nat)) (k k' : String) (v : Nat) (h : k' ≠ k) :
    alGet (alSet l k v) k' = alGet l k' := by
  induction l with
  | nil =>
    simp only [alSet, alGet, beq_iff_eq]
    rw [if_neg (fun hh => h hh.symm)]
  | cons kv t ih =>
    by_cases hk : kv.1 = k
    · simp [alSet, alGet, hk, Ne.symm h]
    · simp only [alSet, alGet, beq_iff_eq, hk, if_false, ih]

theorem getCount_rdbIncr_self (st : RedisState) (k : String) :
    getCount (rdbIncr st k).2 k = getCount st k + 1 := by
  simp [rdbIncr, getCount, alGet_alSet_self]

/-- On a POST request with a working INCR, the handler's final store is
the post-increment store (with the expiry attached exactly when the
returned value is 1), whatever the downstream outcome; and the status is
429 exactly when the post-increment value exceeds 3. -/
theorem chatHandler_post_shape (st : RedisState) (r : GoRequest)
    (gen : String → Except Unit GenResponse) (hm : r.method = "POST") :
    (chatHandler st r false gen).state = (if getCount st (getIPAddress r) + 1 == 1
        then rdbExpire (rdbIncr st (getIPAddress r)).2 (getIPAddress r) 86400
        else (rdbIncr st (getIPAddress r)).2) ∧
    ((chatHandler st r false gen).status = 429 ↔ 3 < getCount st (getIPAddress r) + 1) := by
  unfold chatHandler
  rw [if_neg (fun h => h hm)]
  simp only [Bool.false_eq_true, if_false]
  constructor
  · split
    · rfl
    · split
      · rfl
      · split <;> try rfl
        split <;> try rfl
        split <;> try rfl
        split <;> try rfl
        split <;> rfl
  · split
    · rename_i hgt
      exact ⟨fun _ => hgt, fun _ => rfl⟩
    · rename_i hle
      constructor
      · intro hs
        exfalso
        revert hs
        split
        · intro hs; simp at hs
        · split
          · intro hs; simp at hs
          · split
            · intro hs; simp at hs
            · split
              · intro hs; simp at hs
              · split
                · intro hs; simp at hs
                · split
                  · intro hs; simp at hs
                  · intro hs; simp at hs
      · intro h3
        exact absurd h3 hle

/-! ## The claims -/

/-- C5: a request to /chat whose method is not POST is rejected with
HTTP 405 immediately, before rate-checking: the returned store is the
incoming store unchanged (no counter increment, no expiry), whatever the
body and whatever the completion service would have answered. -/
theorem chatHandler_non_post_rejected (st : RedisState) (r : GoRequest)
    (incrFails : Bool) (gen : String → Except Unit GenResponse)
    (hm : r.method ≠ "POST") :
    chatHandler st r incrFails gen = ⟨405, "Only POST method is allowed\n", st⟩ := by
  unfold chatHandler
  exact if_pos hm

/-- Witness for C5 at a concrete GET request with a well-formed body:
status 405 and the store untouched. -/
theorem chatHandler_non_post_rejected_witness :
    chatHandler ⟨[( "9.9.9.9", 2)], []⟩
        ⟨ "GET", "9.9.9.9", "", "", "\x7b\"resume\":\"r\",\"jobDescription\":\"j\"\x7d"⟩ false
        (fun _ => Except.error ()) =
      ⟨405, "Only POST method is allowed\n", ⟨[( "9.9.9.9", 2)], []⟩⟩ :=
  chatHandler_non_post_rejected _ _ _ _ (by decide)

/-- C1: on a POST request (with the store reachable), the handler
answers 429 exactly when the post-increment counter value returned for
the client key exceeds 3 — independently of the request body and of the
completion service, i.e. the Nth request in a window is allowed iff
N ≤ 3.  (The 24-hour window is the lifetime Redis gives the key; within
one window the counter only grows.) -/
theorem chatHandler_rate_limited_iff (st : RedisState) (r : GoRequest)
    (gen : String → Except Unit GenResponse) (hm : r.method = "POST") :
    ((chatHandler st r false gen).status = 429 ↔ (rdbIncr st (getIPAddress r)).1 > 3) :=
  (chatHandler_post_shape st r gen hm).2

/-- Witness for C1: with the key already at 3 uses, a fourth POST is
answered 429 even though its body is well-formed. -/
theorem chatHandler_rate_limited_iff_witness :
    (chatHandler ⟨[( "9.9.9.9", 3)], [( "9.9.9.9", 86400)]⟩
        ⟨ "POST", "9.9.9.9", "", "", "\x7b\"resume\":\"r\",\"jobDescription\":\"j\"\x7d"⟩ false
        (fun _ => Except.error ())).status = 429 :=
  (chatHandler_rate_limited_iff _ _ _ (by decide)).mpr (by decide)

/-- C10: every POST request with a reachable store increments the
client's counter by exactly one, whatever happens afterwards — including
bodies that fail to decode, upstream failures, empty upstream responses
and undecodable upstream text, so failed requests still consume quota. -/
theorem chatHandler_increments_counter (st : RedisState) (r : GoRequest)
    (gen : String → Except Unit GenResponse) (hm : r.method = "POST") :
    getCount (chatHandler st r false gen).state (getIPAddress r) =
      getCount st (getIPAddress r) + 1 := by
  rw [(chatHandler_post_shape st r gen hm).1]
  split
  · exact getCount_rdbIncr_self st (getIPAddress r)
  · exact getCount_rdbIncr_self st (getIPAddress r)

/-- Witness for C10: a POST whose body is not JSON still consumes one
unit of quota. -/
theorem chatHandler_increments_counter_witness :
    getCount (chatHandler ⟨[], []⟩ ⟨ "POST", "9.9.9.9", "", "", "not json"⟩ false
        (fun _ => Except.error ())).state "9.9.9.9" = 1 :=
  (chatHandler_increments_counter _ _ _ (by decide)).trans (by decide)

/-- C6: on a POST request with a reachable store, the handler's final
store carries a 24-hour (86400 second) expiry for the client key exactly
when the increment it just performed returned 1; when the returned value
is greater than 1, the key's previous expiry is untouched — and expiries
of all other keys are never touched. -/
theorem chatHandler_expiry_iff_first (st : RedisState) (r : GoRequest)
    (gen : String → Except Unit GenResponse) (hm : r.method = "POST") :
    (alGet (chatHandler st r false gen).state.ttls (getIPAddress r) =
      if (rdbIncr st (getIPAddress r)).1 = 1 then some 86400
      else alGet st.ttls (getIPAddress r)) ∧
    (∀ k, k ≠ getIPAddress r →
      alGet (chatHandler st r false gen).state.ttls k = alGet st.ttls k) := by
  rw [(chatHandler_post_shape st r gen hm).1]
  have hv : (rdbIncr st (getIPAddress r)).1 = getCount st (getIPAddress r) + 1 := rfl
  constructor
  · by_cases h1 : getCount st (getIPAddress r) + 1 = 1
    · rw [if_pos (beq_iff_eq.mpr h1), if_pos (hv.trans h1)]
      exact alGet_alSet_self _ _ _
    · rw [if_neg (fun hh => h1 (beq_iff_eq.mp hh)), if_neg (fun hh => h1 (hv.symm.trans hh))]
      rfl
  · intro k hk
    by_cases h1 : getCount st (getIPAddress r) + 1 = 1
    · rw [if_pos (beq_iff_eq.mpr h1)]
      exact alGet_alSet_ne _ _ _ _ hk
    · rw [if_neg (fun hh => h1 (beq_iff_eq.mp hh))]
      rfl

/-- Witness for C6: the first request for a fresh key attaches the
86400-second expiry. -/
theorem chatHandler_expiry_iff_first_witness :
    alGet (chatHandler ⟨[], []⟩ ⟨ "POST", "9.9.9.9", "", "", "not json"⟩ false
        (fun _ => Except.error ())).state.ttls "9.9.9.9" = some 86400 :=
  ((chatHandler_expiry_iff_first _ _ _ (by decide)).1).trans (by decide)

/-- C4: when the first candidate of the upstream response reports the
safety finish reason, the handler answers 400 with the safety message,
with no condition whatsoever on the candidate's text parts — in
particular no fence stripping or JSON parsing of the text is needed for
(or can affect) this outcome, which reads only the candidate metadata. -/
theorem chatHandler_safety_short_circuit (st : RedisState) (r : GoRequest)
    (gen : String → Except Unit GenResponse) (req : AnalysisRequest)
    (resp : GenResponse) (c : Candidate) (cs : List Candidate)
    (hm : r.method = "POST")
    (hcount : getCount st (getIPAddress r) + 1 ≤ 3)
    (hb : (parseJson r.body).bind decodeAnalysisRequest = some req)
    (hg : gen (buildPrompt req) = Except.ok resp)
    (hcand : resp.candidates = c :: cs)
    (hsafe : c.finishReason = FinishReason.safety) :
    chatHandler st r false gen =
      ⟨400, "The analysis was blocked by the content safety filter.\n",
        if (rdbIncr st (getIPAddress r)).1 == 1
          then rdbExpire (rdbIncr st (getIPAddress r)).2 (getIPAddress r) 86400
          else (rdbIncr st (getIPAddress r)).2⟩ := by
  unfold chatHandler
  rw [if_neg (fun h => h hm)]
  simp only [Bool.false_eq_true, if_false]
  split
  · rename_i hgt
    exact absurd hgt (Nat.not_lt.mpr hcount)
  · split
    · rename_i heq
      rw [hb] at heq
      exact Option.noConfusion heq
    · rename_i req' heq
      rw [hb] at heq
      injection heq with heq
      subst heq
      split
      · rename_i heq2
        rw [hg] at heq2
        exact Except.noConfusion heq2
      · rename_i resp' heq2
        rw [hg] at heq2
        injection heq2 with heq2
        subst heq2
        split
        · rename_i heq3
          rw [hcand] at heq3
          exact List.noConfusion heq3
        · rename_i c' cs' heq3
          rw [hcand] at heq3
          injection heq3 with h1 h2
          subst h1
          rw [if_pos hsafe]

/-- Witness for C4: the safety-blocked candidate carries text that is
perfectly valid JSON for the expected schema, yet the handler answers
400 with the safety message. -/
theorem chatHandler_safety_short_circuit_witness :
    chatHandler ⟨[], []⟩
        ⟨ "POST", "9.9.9.9", "", "", "\x7b\"resume\":\"r\",\"jobDescription\":\"j\"\x7d"⟩ false
        (fun _ => Except.ok ⟨[⟨FinishReason.safety,
          ["\x7b\"matchScore\":80,\"improvements\":[\"a\"],\"nextSteps\":[\"b\"]\x7d"]⟩]⟩) =
      ⟨400, "The analysis was blocked by the content safety filter.\n",
        ⟨[( "9.9.9.9", 1)], [( "9.9.9.9", 86400)]⟩⟩ :=
  (chatHandler_safety_short_circuit _ _ _ ⟨ "r", "j"⟩
      ⟨[⟨FinishReason.safety,
        ["\x7b\"matchScore\":80,\"improvements\":[\"a\"],\"nextSteps\":[\"b\"]\x7d"]⟩]⟩
      ⟨FinishReason.safety,
        ["\x7b\"matchScore\":80,\"improvements\":[\"a\"],\"nextSteps\":[\"b\"]\x7d"]⟩ []
      (by decide) (by decide) (by rfl) (by rfl) (by rfl) (by rfl)).trans (by rfl)

set_option maxHeartbeats 4000000 in
/-- On the full success path — POST, counter within quota, body decoded,
upstream call ok, first candidate not safety-blocked and carrying a
first text part whose cleaned text decodes — the handler answers 200
with the encoded decoded response. -/
theorem chatHandler_success_eq (st : RedisState) (r : GoRequest)
    (gen : String → Except Unit GenResponse) (req : AnalysisRequest)
    (resp : GenResponse) (c : Candidate) (cs : List Candidate)
    (part : String) (parts : List String) (ar : AnalysisResponse)
    (hm : r.method = "POST")
    (hcount : getCount st (getIPAddress r) + 1 ≤ 3)
    (hb : (parseJson r.body).bind decodeAnalysisRequest = some req)
    (hg : gen (buildPrompt req) = Except.ok resp)
    (hcand : resp.candidates = c :: cs)
    (hsafe : c.finishReason ≠ FinishReason.safety)
    (hparts : c.parts = part :: parts)
    (hdec : (parseJson (cleanResponse part)).bind decodeAnalysis = some ar) :
    chatHandler st r false gen =
      ⟨200, encodeAnalysisResponse ar ++ "\n",
        if (rdbIncr st (getIPAddress r)).1 == 1
          then rdbExpire (rdbIncr st (getIPAddress r)).2 (getIPAddress r) 86400
          else (rdbIncr st (getIPAddress r)).2⟩ := by
  unfold chatHandler
  rw [if_neg (fun h => h hm)]
  simp only [Bool.false_eq_true, if_false]
  split
  · rename_i hgt
    exact absurd hgt (Nat.not_lt.mpr hcount)
  · split
    · rename_i heq
      rw [hb] at heq
      exact Option.noConfusion heq
    · rename_i req' heq
      rw [hb] at heq
      injection heq with heq
      subst heq
      split
      · rename_i heq2
        rw [hg] at heq2
        exact Except.noConfusion heq2
      · rename_i resp' heq2
        rw [hg] at heq2
        injection heq2 with heq2
        subst heq2
        split
        · rename_i heq3
          rw [hcand] at heq3
          exact List.noConfusion heq3
        · rename_i c' cs' heq3
          rw [hcand] at heq3
          injection heq3 with h1 h2
          subst h1
          rw [if_neg hsafe]
          split
          · rename_i heq4
            rw [hparts] at heq4
            exact List.noConfusion heq4
          · rename_i part' parts' heq4
            rw [hparts] at heq4
            injection heq4 with h3 h4
            subst h3
            split
            · rename_i heq5
              rw [hdec] at heq5
              exact Option.noConfusion heq5
            · rename_i ar' heq5
              rw [hdec] at heq5
              injection heq5 with heq5
              subst heq5
              rfl

/-- C9: on the full success path the handler answers 200 and serializes
the decoded AnalysisResponse exactly as decoded — no hypothesis below
restricts ar.matchScore to [0,100] or to anything else, so whatever
integer the upstream JSON carried under matchScore is returned to the
client unchanged in the 200 body. -/
theorem chatHandler_matchScore_passthrough (st : RedisState) (r : GoRequest)
    (gen : String → Except Unit GenResponse) (req : AnalysisRequest)
    (resp : GenResponse) (c : Candidate) (cs : List Candidate)
    (part : String) (parts : List String) (ar : AnalysisResponse)
    (hm : r.method = "POST")
    (hcount : getCount st (getIPAddress r) + 1 ≤ 3)
    (hb : (parseJson r.body).bind decodeAnalysisRequest = some req)
    (hg : gen (buildPrompt req) = Except.ok resp)
    (hcand : resp.candidates = c :: cs)
    (hsafe : c.finishReason ≠ FinishReason.safety)
    (hparts : c.parts = part :: parts)
    (hdec : (parseJson (cleanResponse part)).bind decodeAnalysis = some ar) :
    chatHandler st r false gen =
      ⟨200, encodeAnalysisResponse ar ++ "\n",
        if (rdbIncr st (getIPAddress r)).1 == 1
          then rdbExpire (rdbIncr st (getIPAddress r)).2 (getIPAddress r) 86400
          else (rdbIncr st (getIPAddress r)).2⟩ :=
  chatHandler_success_eq st r gen req resp c cs part parts ar hm hcount hb hg
    hcand hsafe hparts hdec

/-- Witness for C9: the upstream JSON carries matchScore 150, far
outside [0,100], and the client receives it unchanged in a 200
response. -/
theorem chatHandler_matchScore_passthrough_witness :
    chatHandler ⟨[], []⟩
        ⟨ "POST", "9.9.9.9", "", "", "\x7b\"resume\":\"r\",\"jobDescription\":\"j\"\x7d"⟩ false
        (fun _ => Except.ok ⟨[⟨FinishReason.stop,
          ["\x7b\"matchScore\":150,\"improvements\":[\"a\"],\"nextSteps\":[\"b\"]\x7d"]⟩]⟩) =
      ⟨200, "\x7b\"matchScore\":150,\"improvements\":[\"a\"],\"nextSteps\":[\"b\"]\x7d\n",
        ⟨[( "9.9.9.9", 1)], [( "9.9.9.9", 86400)]⟩⟩ :=
  (chatHandler_matchScore_passthrough _ _ _ ⟨ "r", "j"⟩
      ⟨[⟨FinishReason.stop,
        ["\x7b\"matchScore\":150,\"improvements\":[\"a\"],\"nextSteps\":[\"b\"]\x7d"]⟩]⟩
      ⟨FinishReason.stop,
        ["\x7b\"matchScore\":150,\"improvements\":[\"a\"],\"nextSteps\":[\"b\"]\x7d"]⟩ []
      "\x7b\"matchScore\":150,\"improvements\":[\"a\"],\"nextSteps\":[\"b\"]\x7d" []
      ⟨150, some ["a"], some ["b"]⟩
      (by decide) (by decide) (by rfl) (by rfl) (by rfl) (by decide) (by rfl)
      (by rfl)).trans (by rfl)


/-- Element decode over a mapped string list always succeeds and returns
the strings unchanged. -/
theorem unmarshalStringElems_str (l : List String) :
    unmarshalStringElems (l.map Json.str) = some l := by
  induction l with
  | nil => rfl
  | cons a t ih => simp [unmarshalStringElems, unmarshalString, ih]

/-- C2 (amended): FlexibleStringSlice decoding wraps a JSON string as a
one-element sequence and keeps an array of strings as-is, and numbers,
booleans and objects fail — but JSON null does not fail: the string
branch accepts it as a no-op on the zero value, yielding [""] (and a
null inside an array likewise becomes "").  An array fails exactly when
it holds an element that is neither a string nor null. -/
theorem flexibleUnmarshal_characterised :
    (∀ s, flexibleUnmarshal (Json.str s) = some [s]) ∧
    (∀ l, flexibleUnmarshal (Json.arr (l.map Json.str)) = some l) ∧
    (flexibleUnmarshal Json.null = some [""]) ∧
    (∀ b, flexibleUnmarshal (Json.bool b) = none) ∧
    (∀ n, flexibleUnmarshal (Json.num n) = none) ∧
    (∀ fs, flexibleUnmarshal (Json.obj fs) = none) ∧
    (∀ xs j, j ∈ xs → (∀ s, j ≠ Json.str s) → j ≠ Json.null →
      flexibleUnmarshal (Json.arr xs) = none) := by
  refine ⟨fun s => rfl, fun l => ?_, rfl, fun b => rfl, fun n => rfl, fun fs => rfl, ?_⟩
  · simp only [flexibleUnmarshal, unmarshalString, unmarshalStringList]
    exact unmarshalStringElems_str l
  · intro xs j hmem hns hnn
    have hj : unmarshalString j = none := by
      cases j with
      | null => exact absurd rfl hnn
      | str s => exact absurd rfl (hns s)
      | bool b => rfl
      | num n => rfl
      | arr xs => rfl
      | obj fs => rfl
    simp only [flexibleUnmarshal, unmarshalString, unmarshalStringList]
    induction xs with
    | nil => cases hmem
    | cons a t ih =>
      rcases List.mem_cons.mp hmem with h | h
      · subst h
        simp [unmarshalStringElems, hj]
      · cases ha : unmarshalString a with
        | none => simp [unmarshalStringElems, ha]
        | some y => simp [unmarshalStringElems, ha, ih h]

/-- Witness for C2 (amended): an array holding a boolean fails to
decode. -/
theorem flexibleUnmarshal_characterised_witness :
    flexibleUnmarshal (Json.arr [Json.bool true]) = none :=
  flexibleUnmarshal_characterised.2.2.2.2.2.2 [Json.bool true] (Json.bool true)
    (by simp) (fun s h => Json.noConfusion h) (fun h => Json.noConfusion h)

/-- Counterexample for C2 as stated: JSON null is neither a string nor
an array of strings, yet FlexibleStringSlice decoding does not fail on
it — the string branch's json.Unmarshal treats null as a no-op on the
zero value "" and reports success, so null decodes to [""]. -/
theorem flexibleUnmarshal_null_succeeds : flexibleUnmarshal Json.null = some [""] := rfl

/-- Counterexample for C3 as stated: on raw text made of the fence token
"json-fence three-backticks then x", the code's sequential TrimPrefix
pair strips both leading tokens (yielding "x"), while the spec's
"tried in that order, first match only" rule would strip only the first
(yielding three backticks followed by x): the two disagree. -/
theorem cleanResponse_not_firstMatchOnly :
    cleanResponse "```json```x" ≠ cleanSpecFirstOnly "```json```x" := by decide

/-- C3 (amended): the cleaning step is trim, strip a leading "```json",
then additionally strip a leading "```" if one (still) remains — both
leading trims can fire on one input — then strip a trailing "```" and
trim again; and on the spec's example raw text the normalizer yields
matchScore 80, improvements ["a"], nextSteps ["b","c"]. -/
theorem cleanResponse_seq_roundtrip :
    (∀ s, cleanResponse s = cleanSpecSeq s) ∧
    (parseJson (cleanResponse "```json\n\x7b\"matchScore\":80,\"improvements\":\"a\",\"nextSteps\":[\"b\",\"c\"]\x7d\n```")).bind decodeAnalysis =
      some ⟨80, some ["a"], some ["b", "c"]⟩ ∧
    cleanResponse "```json```x" = "x" := by
  refine ⟨fun s => ?_, rfl, rfl⟩
  simp only [cleanResponse, cleanSpecSeq, stripPre, stripSuf,
    show "```json".length = 7 from rfl, show "```".length = 3 from rfl]
  split_ifs <;> rfl

/-- C7: the client key is the first comma-separated entry of
X-Forwarded-For when that header is non-empty, otherwise X-Real-IP when
non-empty, otherwise the host portion of the connection peer address —
each earlier source taking priority independently of the later ones. -/
theorem getIPAddress_priority (r : GoRequest) :
    (r.xForwardedFor ≠ "" → getIPAddress r = splitFirst r.xForwardedFor) ∧
    (r.xForwardedFor = "" → r.xRealIP ≠ "" → getIPAddress r = r.xRealIP) ∧
    (r.xForwardedFor = "" → r.xRealIP = "" → getIPAddress r = hostPortion r.remoteAddr) := by
  refine ⟨fun h => ?_, fun h1 h2 => ?_, fun h1 h2 => ?_⟩
  · unfold getIPAddress
    rw [if_pos h]
  · unfold getIPAddress
    rw [if_neg (fun hh => hh h1), if_pos h2]
  · unfold getIPAddress
    rw [if_neg (fun hh => hh h1), if_neg (fun hh => hh h2)]
    rfl

/-- Witness for C7: with both headers set, the first X-Forwarded-For
entry wins. -/
theorem getIPAddress_priority_witness :
    getIPAddress ⟨ "POST", "1.2.3.4,5.6.7.8", "8.8.8.8", "7.7.7.7:9000", ""⟩ = "1.2.3.4" :=
  ((getIPAddress_priority _).1 (by decide)).trans (by rfl)

/-- A member whose key folds to "improvements" sets that field to a
present (non-nil) slice whenever it applies successfully. -/
theorem applyField_sets_improvements (r0 r1 : AnalysisResponse) (kv : String × Json)
    (h : applyField r0 kv = some r1) (hk : lowerStr kv.1 = "improvements") :
    r1.improvements.isSome = true := by
  unfold applyField at h
  rw [hk] at h
  simp only [show (("improvements" == "matchscore") = false) from rfl,
    show (("improvements" == "improvements") = true) from rfl,
    Bool.false_eq_true, if_false, if_true] at h
  cases hf : flexibleUnmarshal kv.2 with
  | none => rw [hf] at h; exact Option.noConfusion h
  | some l =>
    rw [hf] at h
    injection h with h
    subst h
    rfl

/-- A member whose key folds to "nextsteps" sets that field to a
present (non-nil) slice whenever it applies successfully. -/
theorem applyField_sets_nextSteps (r0 r1 : AnalysisResponse) (kv : String × Json)
    (h : applyField r0 kv = some r1) (hk : lowerStr kv.1 = "nextsteps") :
    r1.nextSteps.isSome = true := by
  unfold applyField at h
  rw [hk] at h
  simp only [show (("nextsteps" == "matchscore") = false) from rfl,
    show (("nextsteps" == "improvements") = false) from rfl,
    show (("nextsteps" == "nextsteps") = true) from rfl,
    Bool.false_eq_true, if_false, if_true] at h
  cases hf : flexibleUnmarshal kv.2 with
  | none => rw [hf] at h; exact Option.noConfusion h
  | some l =>
    rw [hf] at h
    injection h with h
    subst h
    rfl

/-- No member application can turn a present improvements field back
into the nil slice. -/
theorem applyField_keeps_improvements (r0 r1 : AnalysisResponse) (kv : String × Json)
    (h : applyField r0 kv = some r1) (h0 : r0.improvements.isSome = true) :
    r1.improvements.isSome = true := by
  unfold applyField at h
  split_ifs at h
  · cases hv : kv.2 <;> rw [hv] at h <;>
      first
        | exact Option.noConfusion h
        | (injection h with h; subst h; exact h0)
  · cases hf : flexibleUnmarshal kv.2 with
    | none => rw [hf] at h; exact Option.noConfusion h
    | some l =>
      rw [hf] at h
      injection h with h
      subst h
      rfl
  · cases hf : flexibleUnmarshal kv.2 with
    | none => rw [hf] at h; exact Option.noConfusion h
    | some l =>
      rw [hf] at h
      injection h with h
      subst h
      exact h0
  · injection h with h
    subst h
    exact h0

/-- No member application can turn a present nextSteps field back into
the nil slice. -/
theorem applyField_keeps_nextSteps (r0 r1 : AnalysisResponse) (kv : String × Json)
    (h : applyField r0 kv = some r1) (h0 : r0.nextSteps.isSome = true) :
    r1.nextSteps.isSome = true := by
  unfold applyField at h
  split_ifs at h
  · cases hv : kv.2 <;> rw [hv] at h <;>
      first
        | exact Option.noConfusion h
        | (injection h with h; subst h; exact h0)
  · cases hf : flexibleUnmarshal kv.2 with
    | none => rw [hf] at h; exact Option.noConfusion h
    | some l =>
      rw [hf] at h
      injection h with h
      subst h
      exact h0
  · cases hf : flexibleUnmarshal kv.2 with
    | none => rw [hf] at h; exact Option.noConfusion h
    | some l =>
      rw [hf] at h
      injection h with h
      subst h
      rfl
  · injection h with h
    subst h
    exact h0

/-- Folding the object members: if some member's key folds to
"improvements" (or the field is already present), the decoded record's
improvements field is present. -/
theorem foldlM_applyField_improvements (fs : List (String × Json)) :
    ∀ (r0 ar : AnalysisResponse), fs.foldlM applyField r0 = some ar →
    ((∃ kv ∈ fs, lowerStr kv.1 = "improvements") ∨ r0.improvements.isSome = true) →
    ar.improvements.isSome = true := by
  induction fs with
  | nil =>
    intro r0 ar h hd
    rw [List.foldlM_nil] at h
    injection h with h
    subst h
    rcases hd with ⟨kv, hmem, _⟩ | h0
    · cases hmem
    · exact h0
  | cons kv t ih =>
    intro r0 ar h hd
    rw [List.foldlM_cons] at h
    cases ha : applyField r0 kv with
    | none => rw [ha] at h; exact Option.noConfusion h
    | some r1 =>
      rw [ha] at h
      simp only [Option.pure_def, Option.bind_eq_bind, Option.some_bind] at h
      rcases hd with ⟨kv', hmem, hk⟩ | h0
      · rcases List.mem_cons.mp hmem with he | he
        · subst he
          exact ih r1 ar h (Or.inr (applyField_sets_improvements r0 r1 kv' ha hk))
        · exact ih r1 ar h (Or.inl ⟨kv', he, hk⟩)
      · exact ih r1 ar h (Or.inr (applyField_keeps_improvements r0 r1 kv ha h0))

/-- Folding the object members: if some member's key folds to
"nextsteps" (or the field is already present), the decoded record's
nextSteps field is present. -/
theorem foldlM_applyField_nextSteps (fs : List (String × Json)) :
    ∀ (r0 ar : AnalysisResponse), fs.foldlM applyField r0 = some ar →
    ((∃ kv ∈ fs, lowerStr kv.1 = "nextsteps") ∨ r0.nextSteps.isSome = true) →
    ar.nextSteps.isSome = true := by
  induction fs with
  | nil =>
    intro r0 ar h hd
    rw [List.foldlM_nil] at h
    injection h with h
    subst h
    rcases hd with ⟨kv, hmem, _⟩ | h0
    · cases hmem
    · exact h0
  | cons kv t ih =>
    intro r0 ar h hd
    rw [List.foldlM_cons] at h
    cases ha : applyField r0 kv with
    | none => rw [ha] at h; exact Option.noConfusion h
    | some r1 =>
      rw [ha] at h
      simp only [Option.pure_def, Option.bind_eq_bind, Option.some_bind] at h
      rcases hd with ⟨kv', hmem, hk⟩ | h0
      · rcases List.mem_cons.mp hmem with he | he
        · subst he
          exact ih r1 ar h (Or.inr (applyField_sets_nextSteps r0 r1 kv' ha hk))
        · exact ih r1 ar h (Or.inl ⟨kv', he, hk⟩)
      · exact ih r1 ar h (Or.inr (applyField_keeps_nextSteps r0 r1 kv ha h0))

/-- A non-nil slice is always rendered as a JSON array: its encoding
starts with the opening bracket. -/
theorem strStarts_encodeStringList (l : List String) :
    strStarts (encodeStringList l) "[" = true := by
  unfold encodeStringList strStarts
  rw [String.data_append, String.data_append]
  simp [List.isPrefixOf]

/-- Counterexample for C8 as stated: when the upstream JSON omits the
improvements and nextSteps keys, the decode succeeds and leaves both
fields as Go nil slices, and json.Marshal renders nil slices as JSON
null — so a 200 body can carry "improvements":null, contradicting
"never ... null". -/
theorem chatHandler_absent_keys_serialize_null :
    chatHandler ⟨[], []⟩
        ⟨ "POST", "9.9.9.9", "", "", "\x7b\"resume\":\"r\",\"jobDescription\":\"j\"\x7d"⟩ false
        (fun _ => Except.ok ⟨[⟨FinishReason.stop, ["\x7b\"matchScore\":80\x7d"]⟩]⟩) =
      ⟨200, "\x7b\"matchScore\":80,\"improvements\":null,\"nextSteps\":null\x7d\n",
        ⟨[( "9.9.9.9", 1)], [( "9.9.9.9", 86400)]⟩⟩ := rfl

set_option maxHeartbeats 4000000 in
/-- C8 (amended): every 200 response body is the serialized record
\x7b matchScore, improvements, nextSteps \x7d, and whenever the upstream
object actually contains the improvements and nextSteps keys, both
fields are serialized as JSON arrays of strings (their encoding starts
with "["), never as a single string or null; a key the upstream object
omits is serialized as null instead. -/
theorem chatHandler_success_fields_as_arrays (st : RedisState) (r : GoRequest)
    (gen : String → Except Unit GenResponse) (req : AnalysisRequest)
    (resp : GenResponse) (c : Candidate) (cs : List Candidate)
    (part : String) (parts : List String) (fs : List (String × Json))
    (ar : AnalysisResponse)
    (hm : r.method = "POST")
    (hcount : getCount st (getIPAddress r) + 1 ≤ 3)
    (hb : (parseJson r.body).bind decodeAnalysisRequest = some req)
    (hg : gen (buildPrompt req) = Except.ok resp)
    (hcand : resp.candidates = c :: cs)
    (hsafe : c.finishReason ≠ FinishReason.safety)
    (hparts : c.parts = part :: parts)
    (hjson : parseJson (cleanResponse part) = some (Json.obj fs))
    (hdec : decodeAnalysis (Json.obj fs) = some ar)
    (hki : ∃ kv ∈ fs, lowerStr kv.1 = "improvements")
    (hkn : ∃ kv ∈ fs, lowerStr kv.1 = "nextsteps") :
    chatHandler st r false gen =
      ⟨200, encodeAnalysisResponse ar ++ "\n",
        if (rdbIncr st (getIPAddress r)).1 == 1
          then rdbExpire (rdbIncr st (getIPAddress r)).2 (getIPAddress r) 86400
          else (rdbIncr st (getIPAddress r)).2⟩ ∧
    strStarts (encodeFlexible ar.improvements) "[" = true ∧
    strStarts (encodeFlexible ar.nextSteps) "[" = true := by
  have hbind : (parseJson (cleanResponse part)).bind decodeAnalysis = some ar := by
    rw [hjson]
    exact hdec
  have hfold : fs.foldlM applyField zeroAnalysisResponse = some ar := hdec
  have hi : ar.improvements.isSome = true :=
    foldlM_applyField_improvements fs zeroAnalysisResponse ar hfold (Or.inl hki)
  have hn : ar.nextSteps.isSome = true :=
    foldlM_applyField_nextSteps fs zeroAnalysisResponse ar hfold (Or.inl hkn)
  refine ⟨chatHandler_success_eq st r gen req resp c cs part parts ar hm hcount hb hg
    hcand hsafe hparts hbind, ?_, ?_⟩
  · obtain ⟨l, hl⟩ := Option.isSome_iff_exists.mp hi
    rw [hl]
    exact strStarts_encodeStringList l
  · obtain ⟨l, hl⟩ := Option.isSome_iff_exists.mp hn
    rw [hl]
    exact strStarts_encodeStringList l

/-- Witness for C8 (amended): a success response with both keys present
serializes both fields as arrays. -/
theorem chatHandler_success_fields_as_arrays_witness :
    (chatHandler ⟨[], []⟩
        ⟨ "POST", "9.9.9.9", "", "", "\x7b\"resume\":\"r\",\"jobDescription\":\"j\"\x7d"⟩ false
        (fun _ => Except.ok ⟨[⟨FinishReason.stop,
          ["\x7b\"matchScore\":80,\"improvements\":[\"a\"],\"nextSteps\":[\"b\"]\x7d"]⟩]⟩) =
      ⟨200, "\x7b\"matchScore\":80,\"improvements\":[\"a\"],\"nextSteps\":[\"b\"]\x7d\n",
        ⟨[( "9.9.9.9", 1)], [( "9.9.9.9", 86400)]⟩⟩) ∧
    strStarts "[\"a\"]" "[" = true ∧ strStarts "[\"b\"]" "[" = true :=
  let h := chatHandler_success_fields_as_arrays ⟨[], []⟩
    ⟨ "POST", "9.9.9.9", "", "", "\x7b\"resume\":\"r\",\"jobDescription\":\"j\"\x7d"⟩
    (fun _ => Except.ok ⟨[⟨FinishReason.stop,
      ["\x7b\"matchScore\":80,\"improvements\":[\"a\"],\"nextSteps\":[\"b\"]\x7d"]⟩]⟩)
    ⟨ "r", "j"⟩
    ⟨[⟨FinishReason.stop,
      ["\x7b\"matchScore\":80,\"improvements\":[\"a\"],\"nextSteps\":[\"b\"]\x7d"]⟩]⟩
    ⟨FinishReason.stop,
      ["\x7b\"matchScore\":80,\"improvements\":[\"a\"],\"nextSteps\":[\"b\"]\x7d"]⟩ []
    "\x7b\"matchScore\":80,\"improvements\":[\"a\"],\"nextSteps\":[\"b\"]\x7d" []
    [( "matchScore", Json.num 80), ( "improvements", Json.arr [Json.str "a"]),
      ( "nextSteps", Json.arr [Json.str "b"])]
    ⟨80, some ["a"], some ["b"]⟩
    (by decide) (by decide) (by rfl) (by rfl) (by rfl) (by decide) (by rfl)
    (by rfl) (by rfl)
    ⟨( "improvements", Json.arr [Json.str "a"]),
      List.mem_cons_of_mem _ (List.mem_cons_self _ _), rfl⟩
    ⟨( "nextSteps", Json.arr [Json.str "b"]),
      List.mem_cons_of_mem _ (List.mem_cons_of_mem _ (List.mem_cons_self _ _)), rfl⟩
  ⟨h.1.trans (by rfl), h.2.1, h.2.2⟩


end ResumeMatcher
